import Mathlib

/-!
Verification of the simulation engine in
`app/services/simulation_engine.py` (class `SimulationEngine`).

Numbers are modelled by `ℚ` (the engine's float arithmetic, idealised as
exact rationals), Python dicts by association lists with CPython
insert-or-overwrite semantics, and the process-wide normal random source
by an explicit stream of draw values passed to each run.  `np.percentile`
is embedded with its default linear-interpolation estimator and
`round(x, 2)` with round-half-to-even.
-/

namespace DecisionSim

/-- Python `d.get(k)`: the binding of key `k` in an association-list
dict, or `none` when the key is absent. -/
def dget {α : Type} : List (String × α) → String → Option α
  | [], _ => none
  | (k', v) :: rest, k => if k' = k then some v else dget rest k

/-- Python `d.get(k, dflt)`. -/
def dgetD {α : Type} (d : List (String × α)) (k : String) (dflt : α) : α :=
  (dget d k).getD dflt

/-- Python `d[k] = v`: overwrite in place when the key is present
(CPython dicts keep the key's original position), otherwise append. -/
def dinsert {α : Type} (k : String) (v : α) : List (String × α) → List (String × α)
  | [] => [(k, v)]
  | (k', v') :: rest => if k' = k then (k', v) :: rest else (k', v') :: dinsert k v rest

/-- The keys of a dict, in insertion order. -/
def dkeys {α : Type} (d : List (String × α)) : List String := d.map Prod.fst

/-- A dict built by a loop `for b in l: d[key b] = val b`, starting from
the empty dict. -/
def dfold {β : Type} {α : Type} (key : β → String) (val : β → α) (l : List β) :
    List (String × α) :=
  l.foldl (fun d b => dinsert (key b) (val b) d) []

/-- ASCII lowercasing of one character, as Python `str.lower` acts on
ASCII text. -/
def charLower (c : Char) : Char :=
  if 65 ≤ c.toNat ∧ c.toNat ≤ 90 then Char.ofNat (c.toNat + 32) else c

/-- Python `s.lower()`, modelled for ASCII strings. -/
def pyLower (s : String) : String := ⟨s.data.map charLower⟩

/-- Round to the nearest integer with ties to even, as Python's builtin
`round` and `np.round` behave on exactly representable values. -/
def rnd (x : ℚ) : ℤ :=
  let f := ⌊x⌋
  if x - f < 1/2 then f
  else if 1/2 < x - f then f + 1
  else if f % 2 = 0 then f else f + 1

/-- Python `round(x, 2)`. -/
def round2 (x : ℚ) : ℚ := (rnd (100 * x) : ℚ) / 100

/-- Python `round(x, 1)`. -/
def round1 (x : ℚ) : ℚ := (rnd (10 * x) : ℚ) / 10

/-- `np.mean` of a sample. -/
def listMean (l : List ℚ) : ℚ := l.sum / l.length

/-- The square of `np.std` (population variance); `np.std` itself is the
square root of this quantity. -/
def listVar (l : List ℚ) : ℚ := (l.map (fun x => (x - listMean l)^2)).sum / l.length

/-- Floor of the square root of a nonnegative rational `p/q`, computed
exactly: `⌊√(p/q)⌋ = ⌊⌊√(p·q)⌋ / q⌋`. -/
def sqrtFloor (x : ℚ) : ℤ := ((Nat.sqrt (x.num.toNat * x.den) / x.den : ℕ) : ℤ)

/-- Round-half-even of `√y` for `y ≥ 0`.  Comparisons of `√y` against
the midpoint `f + 1/2` are decided exactly by squaring:
`√y < f + 1/2 ↔ 4·y < (2·f + 1)^2`. -/
def rndSqrt (y : ℚ) : ℤ :=
  let f := sqrtFloor y
  if 4 * y < (((2 * f + 1)^2 : ℤ) : ℚ) then f
  else if (((2 * f + 1)^2 : ℤ) : ℚ) < 4 * y then f + 1
  else if f % 2 = 0 then f else f + 1

/-- Python `round(np.std(sample), 2)` expressed through the variance
`v`: `round2 (√v) = rndSqrt (10000·v) / 100`, since
`100·√v = √(10000·v)`. -/
def stdRound2 (v : ℚ) : ℚ := (rndSqrt (10000 * v) : ℚ) / 100

/-- The ascending sort `np.percentile` performs internally. -/
def sortQ (l : List ℚ) : List ℚ := l.insertionSort (· ≤ ·)

/-- Linear interpolation between adjacent order statistics of a sorted
sample at fractional position `pos`, as `np.percentile` interpolates. -/
def interp (s : List ℚ) (pos : ℚ) : ℚ :=
  let n := s.length
  let i := (⌊pos⌋).toNat
  let g := pos - (i : ℚ)
  if i + 1 < n then s.getD i 0 + g * (s.getD (i + 1) 0 - s.getD i 0)
  else s.getD (n - 1) 0

/-- `np.percentile(l, q)` with the default linear-interpolation method:
the sorted sample is read at position `q·(n−1)/100`. -/
def percentile (l : List ℚ) (q : ℚ) : ℚ :=
  interp (sortQ l) (q * (((sortQ l).length : ℚ) - 1) / 100)

/-- `DecisionType` from `schemas.py`. -/
inductive DecisionType
  | relocation
  | purchase
  | job
  | investment
deriving DecidableEq

/-- `SimulationEngine.__init__`: the run configuration held by one
engine instance.  No validation of either field is performed. -/
structure SimulationEngine where
  time_horizon : ℕ
  monte_carlo_runs : ℕ
deriving DecidableEq

/-- The loosely typed `structured_data` mapping, restricted to the keys
the engine reads; `none` models an absent key.  `user_context_salary`
stands for `structured_data.get("user_context", \x7b\x7d).get("salary")`. -/
structure StructuredData where
  cities : Option (List String)
  options : Option (List String)
  budget : Option ℚ
  amount : Option ℚ
  user_context_salary : Option ℚ

/-- The `external_data` mapping: per-city cost-of-living component dicts
and per-city tax dicts.  An absent top-level key behaves exactly like
the empty dict, so both are modelled as plain dicts. -/
structure ExternalData where
  cost_of_living : List (String × List (String × ℚ))
  tax_rates : List (String × List (String × ℚ))

/-- One year of `_simulate_relocation`'s deterministic trajectory. -/
structure RelocationPoint where
  year : ℕ
  gross_income : ℚ
  net_income : ℚ
  total_expenses : ℚ
  savings : ℚ
  cumulative_savings : ℚ
deriving DecidableEq

/-- One year of `_simulate_purchase`'s deterministic trajectory. -/
structure PurchasePoint where
  year : ℕ
  current_value : ℚ
  maintenance_cost : ℚ
  total_cost_to_date : ℚ
  net_value : ℚ
deriving DecidableEq

/-- One year of `_simulate_job`'s deterministic trajectory. -/
structure JobPoint where
  year : ℕ
  salary : ℚ
  cumulative_earnings : ℚ
  growth_rate : ℚ
deriving DecidableEq

/-- One year of `_simulate_investment`'s deterministic trajectory. -/
structure InvestmentPoint where
  year : ℕ
  value : ℚ
  total_return : ℚ
  return_percentage : ℚ
deriving DecidableEq

/-- A yearly projection point of any of the four strategies. -/
inductive YearlyPoint
  | reloc (p : RelocationPoint)
  | purch (p : PurchasePoint)
  | job (p : JobPoint)
  | invest (p : InvestmentPoint)
deriving DecidableEq

/-- The `year` field every yearly point carries. -/
def YearlyPoint.year : YearlyPoint → ℕ
  | .reloc p => p.year
  | .purch p => p.year
  | .job p => p.year
  | .invest p => p.year

/-- The dict returned by `_run_monte_carlo_savings`. -/
structure MCSavingsSummary where
  mean : ℚ
  std : ℚ
  p5 : ℚ
  p25 : ℚ
  p50 : ℚ
  p75 : ℚ
  p95 : ℚ
deriving DecidableEq

/-- The dict returned by `_run_monte_carlo_salary`. -/
structure MCSalarySummary where
  mean : ℚ
  std : ℚ
  p5 : ℚ
  p95 : ℚ
deriving DecidableEq

/-- The dict returned by `_run_monte_carlo_investment`. -/
structure MCInvestmentSummary where
  mean : ℚ
  std : ℚ
  p5 : ℚ
  p25 : ℚ
  p50 : ℚ
  p75 : ℚ
  p95 : ℚ
  prob_loss : ℚ
deriving DecidableEq

/-- A per-option Monte Carlo summary of whichever sampler ran. -/
inductive MCResult
  | savings (s : MCSavingsSummary)
  | salary (s : MCSalarySummary)
  | investment (s : MCInvestmentSummary)
deriving DecidableEq

/-- The `metadata` dict of a simulation result.  `monte_carlo_runs` and
`initial_amount` are optional because not every strategy writes them. -/
structure Metadata where
  time_horizon_years : ℕ
  monte_carlo_runs : Option ℕ
  initial_amount : Option ℚ
  simulation_date : String
deriving DecidableEq

/-- The dict returned by `run_simulation`. -/
structure SimulationOutput where
  projections : List (String × List YearlyPoint)
  monte_carlo : Option (List (String × MCResult))
  metadata : Metadata

/-- The process-wide normal random source, made explicit: component
`draws i t y` holds the values `np.random.normal` returns in iteration
`i` of the option loop, trial `t`, year `y`.  Strategies drawing twice a
year use both components, the others only the first. -/
abbrev DrawSource := ℕ → ℕ → ℕ → ℚ × ℚ

/-- One trial of `_run_monte_carlo_savings`: `time_horizon` years of
random salary growth and inflation, accumulating net income minus
cost. -/
def mcSavingsTrial (horizon : ℕ) (base_salary yearly_cost tax_rate : ℚ)
    (d : ℕ → ℚ × ℚ) : ℚ :=
  ((List.range horizon).foldl
    (fun st year =>
      let salary := st.1 * (1 + (d year).1)
      let cost := st.2.1 * (1 + (d year).2)
      (salary, cost, st.2.2 + (salary * (1 - tax_rate) - cost)))
    (base_salary, yearly_cost, 0)).2.2

/-- `_run_monte_carlo_savings`. -/
def runMonteCarloSavings (e : SimulationEngine) (base_salary yearly_cost tax_rate : ℚ)
    (d : ℕ → ℕ → ℚ × ℚ) : MCSavingsSummary :=
  let final := (List.range e.monte_carlo_runs).map
    (fun t => mcSavingsTrial e.time_horizon base_salary yearly_cost tax_rate (d t))
  { mean := round2 (listMean final)
    std := stdRound2 (listVar final)
    p5 := round2 (percentile final 5)
    p25 := round2 (percentile final 25)
    p50 := round2 (percentile final 50)
    p75 := round2 (percentile final 75)
    p95 := round2 (percentile final 95) }

/-- One trial of `_run_monte_carlo_salary`: the salary compounds under a
random growth draw each year. -/
def mcSalaryTrial (horizon : ℕ) (base_salary : ℚ) (d : ℕ → ℚ) : ℚ :=
  (List.range horizon).foldl (fun salary _year => salary * (1 + d _year)) base_salary

/-- `_run_monte_carlo_salary`; `expected_growth` only parameterises the
distribution the draws come from. -/
def runMonteCarloSalary (e : SimulationEngine) (base_salary expected_growth : ℚ)
    (d : ℕ → ℕ → ℚ) : MCSalarySummary :=
  let final := (List.range e.monte_carlo_runs).map
    (fun t => mcSalaryTrial e.time_horizon base_salary (d t))
  { mean := round2 (listMean final)
    std := stdRound2 (listVar final)
    p5 := round2 (percentile final 5)
    p95 := round2 (percentile final 95) }

/-- One trial of `_run_monte_carlo_investment`: the value compounds
under a random return draw each year. -/
def mcInvestTrial (horizon : ℕ) (initial_amount : ℚ) (d : ℕ → ℚ) : ℚ :=
  (List.range horizon).foldl (fun value _year => value * (1 + d _year)) initial_amount

/-- `_run_monte_carlo_investment`; `prob_loss` is
`round(np.mean(values < initial) * 100, 2)`. -/
def runMonteCarloInvestment (e : SimulationEngine) (initial_amount expected_return volatility : ℚ)
    (d : ℕ → ℕ → ℚ) : MCInvestmentSummary :=
  let final := (List.range e.monte_carlo_runs).map
    (fun t => mcInvestTrial e.time_horizon initial_amount (d t))
  { mean := round2 (listMean final)
    std := stdRound2 (listVar final)
    p5 := round2 (percentile final 5)
    p25 := round2 (percentile final 25)
    p50 := round2 (percentile final 50)
    p75 := round2 (percentile final 75)
    p95 := round2 (percentile final 95)
    prob_loss := round2 (((final.countP (fun v => decide (v < initial_amount)) : ℚ) /
      (final.length : ℚ)) * 100) }

/-- Monthly cost of living of a city:
`sum(col.values()) if col else 2000` after the case-lowered lookup. -/
def relocMonthlyCost (ed : ExternalData) (city : String) : ℚ :=
  let col := dgetD ed.cost_of_living (pyLower city) []
  if col = [] then 2000 else (col.map Prod.snd).sum

/-- Effective tax rate of a city: `tax.get("effective_rate", 0.30)`
after the case-lowered lookup. -/
def relocEffectiveTax (ed : ExternalData) (city : String) : ℚ :=
  dgetD (dgetD ed.tax_rates (pyLower city) []) "effective_rate" (30/100)

/-- `structured_data.get("user_context", \x7b\x7d).get("salary", 80000)`. -/
def relocBaseSalary (sd : StructuredData) : ℚ :=
  sd.user_context_salary.getD 80000

/-- The body of `_simulate_relocation`'s year loop. -/
def relocYearPoint (base_salary yearly_cost effective_tax : ℚ) (year : ℕ) : YearlyPoint :=
  let inflation_factor : ℚ := (103/100)^year
  let salary_factor : ℚ := (102/100)^year
  let adjusted_salary := base_salary * salary_factor
  let adjusted_cost := yearly_cost * inflation_factor
  let net_income := adjusted_salary * (1 - effective_tax)
  let savings := net_income - adjusted_cost
  .reloc {
    year := year
    gross_income := round2 adjusted_salary
    net_income := round2 net_income
    total_expenses := round2 adjusted_cost
    savings := round2 savings
    cumulative_savings := round2 (savings * (year : ℚ)) }

/-- The deterministic yearly projection `_simulate_relocation` builds
for one city. -/
def relocCityProjection (e : SimulationEngine) (sd : StructuredData) (ed : ExternalData)
    (city : String) : List YearlyPoint :=
  (List.range' 1 e.time_horizon).map
    (relocYearPoint (relocBaseSalary sd) (relocMonthlyCost ed city * 12)
      (relocEffectiveTax ed city))

/-- `_simulate_relocation`: one pass over `cities` filling the
projection dict and the Monte Carlo dict, then the metadata. -/
def simulateRelocation (e : SimulationEngine) (sd : StructuredData) (ed : ExternalData)
    (draws : DrawSource) (now : String) : SimulationOutput :=
  let cities := sd.cities.getD []
  { projections := dfold Prod.snd (fun p => relocCityProjection e sd ed p.2) cities.enum
    monte_carlo := some (dfold Prod.snd (fun p =>
      MCResult.savings (runMonteCarloSavings e (relocBaseSalary sd)
        (relocMonthlyCost ed p.2 * 12) (relocEffectiveTax ed p.2) (draws p.1))) cities.enum)
    metadata := {
      time_horizon_years := e.time_horizon
      monte_carlo_runs := some e.monte_carlo_runs
      initial_amount := none
      simulation_date := now } }

/-- The year loop of `_simulate_purchase`: the current value depreciates
by 15% and the running total cost accumulates the flat maintenance. -/
def purchaseSteps (maintenance : ℚ) : ℕ → ℕ → ℚ → ℚ → List YearlyPoint
  | 0, _, _, _ => []
  | n + 1, year, current_value, total_cost =>
    let cv := current_value * (1 - 15/100)
    let tc := total_cost + maintenance
    .purch {
      year := year
      current_value := round2 cv
      maintenance_cost := round2 maintenance
      total_cost_to_date := round2 tc
      net_value := round2 (cv - tc) } :: purchaseSteps maintenance n (year + 1) cv tc

/-- The projection `_simulate_purchase` builds for the option at index
`i`: initial cost `budget·(0.8 + 0.2·i)`, maintenance 5% of it. -/
def purchaseOptionProjection (e : SimulationEngine) (budget : ℚ) (i : ℕ) : List YearlyPoint :=
  let initial_cost := budget * (8/10 + (i : ℚ) * (2/10))
  purchaseSteps (initial_cost * (5/100)) e.time_horizon 1 initial_cost initial_cost

/-- `_simulate_purchase`: deterministic only, `monte_carlo` is null, and
the metadata carries no sample count. -/
def simulatePurchase (e : SimulationEngine) (sd : StructuredData) (_ed : ExternalData)
    (now : String) : SimulationOutput :=
  let options := sd.options.getD []
  let budget := sd.budget.getD 50000
  { projections := dfold Prod.snd (fun p => purchaseOptionProjection e budget p.1) options.enum
    monte_carlo := none
    metadata := {
      time_horizon_years := e.time_horizon
      monte_carlo_runs := none
      initial_amount := none
      simulation_date := now } }

/-- The year loop of `_simulate_job`: the salary is recomputed from the
base by compounding and the cumulative earnings is a running sum. -/
def jobSteps (base_salary growth_rate : ℚ) : ℕ → ℕ → ℚ → List YearlyPoint
  | 0, _, _ => []
  | n + 1, year, cumulative_earnings =>
    let current_salary := base_salary * (1 + growth_rate)^year
    let cum := cumulative_earnings + current_salary
    .job {
      year := year
      salary := round2 current_salary
      cumulative_earnings := round2 cum
      growth_rate := round1 (growth_rate * 100) } :: jobSteps base_salary growth_rate n (year + 1) cum

/-- The mock base salary of the job option at index `i`. -/
def jobBaseSalary (i : ℕ) : ℚ := 70000 + (i : ℚ) * 15000

/-- The mock growth rate of the job option at index `i`. -/
def jobGrowthRate (i : ℕ) : ℚ := 5/100 + (i : ℚ) * (2/100)

/-- `_simulate_job`. -/
def simulateJob (e : SimulationEngine) (sd : StructuredData) (_ed : ExternalData)
    (draws : DrawSource) (now : String) : SimulationOutput :=
  let options := sd.options.getD []
  { projections := dfold Prod.snd
      (fun p => jobSteps (jobBaseSalary p.1) (jobGrowthRate p.1) e.time_horizon 1 0) options.enum
    monte_carlo := some (dfold Prod.snd (fun p =>
      MCResult.salary (runMonteCarloSalary e (jobBaseSalary p.1) (jobGrowthRate p.1)
        (fun t y => (draws p.1 t y).1))) options.enum)
    metadata := {
      time_horizon_years := e.time_horizon
      monte_carlo_runs := some e.monte_carlo_runs
      initial_amount := none
      simulation_date := now } }

/-- The fixed reference table of `_simulate_investment`, consulted with
the case-lowered option name; unmatched names get (0.06, 0.12). -/
def investmentParams (option : String) : ℚ × ℚ :=
  dgetD [( "stocks", ((10 : ℚ)/100, (20 : ℚ)/100)),
         ( "bonds", ((5 : ℚ)/100, (5 : ℚ)/100)),
         ( "real_estate", ((7 : ℚ)/100, (10 : ℚ)/100)),
         ( "crypto", ((15 : ℚ)/100, (50 : ℚ)/100))]
    (pyLower option) (6/100, 12/100)

/-- The year loop of `_simulate_investment`: the value compounds at the
expected return. -/
def investSteps (amount expected_return : ℚ) : ℕ → ℕ → ℚ → List YearlyPoint
  | 0, _, _ => []
  | n + 1, year, current_value =>
    let cv := current_value * (1 + expected_return)
    .invest {
      year := year
      value := round2 cv
      total_return := round2 (cv - amount)
      return_percentage := round2 ((cv / amount - 1) * 100) } :: investSteps amount expected_return n (year + 1) cv

/-- `_simulate_investment`. -/
def simulateInvestment (e : SimulationEngine) (sd : StructuredData) (_ed : ExternalData)
    (draws : DrawSource) (now : String) : SimulationOutput :=
  let options := sd.options.getD []
  let amount := sd.amount.getD 10000
  { projections := dfold Prod.snd
      (fun p => investSteps amount (investmentParams p.2).1 e.time_horizon 1 amount) options.enum
    monte_carlo := some (dfold Prod.snd (fun p =>
      MCResult.investment (runMonteCarloInvestment e amount (investmentParams p.2).1
        (investmentParams p.2).2 (fun t y => (draws p.1 t y).1))) options.enum)
    metadata := {
      time_horizon_years := e.time_horizon
      monte_carlo_runs := some e.monte_carlo_runs
      initial_amount := some amount
      simulation_date := now } }

/-- `run_simulation`: dispatch on the decision kind.  The random source
and the call-time clock reading are passed explicitly. -/
def runSimulation (e : SimulationEngine) (kind : DecisionType) (sd : StructuredData)
    (ed : ExternalData) (draws : DrawSource) (now : String) : SimulationOutput :=
  match kind with
  | .relocation => simulateRelocation e sd ed draws now
  | .purchase => simulatePurchase e sd ed now
  | .job => simulateJob e sd ed draws now
  | .investment => simulateInvestment e sd ed draws now

/-- The option/city names a run iterates over: `cities` for relocation,
`options` for the other kinds. -/
def inputNames (kind : DecisionType) (sd : StructuredData) : List String :=
  match kind with
  | .relocation => sd.cities.getD []
  | _ => sd.options.getD []

lemma dget_dinsert_self {α : Type} (k : String) (v : α) (d : List (String × α)) :
    dget (dinsert k v d) k = some v := by
  induction d with
  | nil => simp [dinsert, dget]
  | cons hd tl ih =>
    obtain ⟨k', v'⟩ := hd
    by_cases h : k' = k
    · simp [dinsert, dget, h]
    · simp [dinsert, dget, h, ih]

lemma dget_dinsert_ne {α : Type} {k k' : String} (h : k' ≠ k) (v : α)
    (d : List (String × α)) : dget (dinsert k' v d) k = dget d k := by
  induction d with
  | nil => simp [dinsert, dget, h]
  | cons hd tl ih =>
    obtain ⟨k'', v''⟩ := hd
    by_cases h2 : k'' = k'
    · subst h2
      simp [dinsert, dget, h]
    · simp [dinsert, dget, h2, ih]

lemma mem_dinsert {α : Type} {p : String × α} {k : String} {v : α}
    {d : List (String × α)} (h : p ∈ dinsert k v d) : p = (k, v) ∨ p ∈ d := by
  induction d with
  | nil => simpa [dinsert] using h
  | cons hd tl ih =>
    obtain ⟨k', v'⟩ := hd
    by_cases h2 : k' = k
    · subst h2
      rcases (by simpa [dinsert] using h : p = (k', v) ∨ p ∈ tl) with h3 | h3
      · exact Or.inl h3
      · exact Or.inr (List.mem_cons_of_mem _ h3)
    · rcases (by simpa [dinsert, h2] using h : p = (k', v') ∨ p ∈ dinsert k v tl) with h3 | h3
      · exact Or.inr (by simp [h3])
      · rcases ih h3 with h4 | h4
        · exact Or.inl h4
        · exact Or.inr (List.mem_cons_of_mem _ h4)

lemma dkeys_dinsert {α : Type} (k : String) (v : α) (d : List (String × α)) :
    dkeys (dinsert k v d) = if k ∈ dkeys d then dkeys d else dkeys d ++ [k] := by
  induction d with
  | nil => simp [dinsert, dkeys]
  | cons hd tl ih =>
    obtain ⟨k', v'⟩ := hd
    by_cases h : k' = k
    · subst h
      simp [dinsert, dkeys]
    · have hne : ¬ k = k' := fun h2 => h h2.symm
      have hstep : dinsert k v ((k', v') :: tl) = (k', v') :: dinsert k v tl := by
        simp [dinsert, h]
      rw [hstep]
      simp only [dkeys, List.map_cons] at ih ⊢
      rw [ih]
      by_cases h2 : k ∈ List.map Prod.fst tl
      · simp [h2, hne]
      · simp [h2, hne]

lemma mem_dkeys_dinsert {α : Type} (name k : String) (v : α) (d : List (String × α)) :
    name ∈ dkeys (dinsert k v d) ↔ name = k ∨ name ∈ dkeys d := by
  rw [dkeys_dinsert]
  by_cases h : k ∈ dkeys d
  · simp only [h, if_true]
    constructor
    · exact fun h2 => Or.inr h2
    · rintro (rfl | h2)
      · exact h
      · exact h2
  · simp [h, or_comm]

lemma nodup_dkeys_dinsert {α : Type} (k : String) (v : α) {d : List (String × α)}
    (h : (dkeys d).Nodup) : (dkeys (dinsert k v d)).Nodup := by
  rw [dkeys_dinsert]
  by_cases h2 : k ∈ dkeys d
  · simpa [h2] using h
  · simp only [h2, if_false]
    exact (List.nodup_append_comm.mp (by simpa using ⟨h2, h⟩))

lemma dget_foldl_dinsert {β α : Type} (key : β → String) (val : β → α) (f : String → α)
    (name : String) :
    ∀ (l : List β) (d : List (String × α)), (∀ b ∈ l, key b = name → val b = f name) →
      (name ∈ l.map key ∨ dget d name = some (f name)) →
      dget (l.foldl (fun acc b => dinsert (key b) (val b) acc) d) name = some (f name) := by
  intro l
  induction l with
  | nil =>
    intro d _ h
    simpa using h.resolve_left (by simp)
  | cons b rest ih =>
    intro d hval h
    simp only [List.foldl_cons]
    apply ih (dinsert (key b) (val b) d)
    · exact fun b' hb' => hval b' (List.mem_cons_of_mem _ hb')
    · by_cases hk : key b = name
      · right
        rw [hk, dget_dinsert_self]
        rw [hval b (List.mem_cons_self b rest) hk]
      · rcases h with h | h
        · rw [List.map_cons] at h
          rcases List.mem_cons.mp h with h2 | h2
          · exact absurd h2.symm hk
          · exact Or.inl h2
        · right
          rw [dget_dinsert_ne hk, h]

lemma dget_dfold_eq {β α : Type} (key : β → String) (val : β → α) (f : String → α)
    {l : List β} {name : String} (hval : ∀ b ∈ l, key b = name → val b = f name)
    (hname : name ∈ l.map key) :
    dget (dfold key val l) name = some (f name) :=
  dget_foldl_dinsert key val f name l [] hval (Or.inl hname)

lemma mem_dkeys_foldl {β α : Type} (key : β → String) (val : β → α) (name : String) :
    ∀ (l : List β) (d : List (String × α)),
      (name ∈ dkeys (l.foldl (fun acc b => dinsert (key b) (val b) acc) d) ↔
        name ∈ l.map key ∨ name ∈ dkeys d) := by
  intro l
  induction l with
  | nil => simp
  | cons b rest ih =>
    intro d
    simp only [List.foldl_cons, List.map_cons, List.mem_cons]
    rw [ih, mem_dkeys_dinsert]
    tauto

lemma nodup_dkeys_foldl {β α : Type} (key : β → String) (val : β → α) :
    ∀ (l : List β) (d : List (String × α)), (dkeys d).Nodup →
      (dkeys (l.foldl (fun acc b => dinsert (key b) (val b) acc) d)).Nodup := by
  intro l
  induction l with
  | nil => exact fun d h => h
  | cons b rest ih =>
    intro d h
    exact ih _ (nodup_dkeys_dinsert _ _ h)

lemma nodup_dkeys_dfold {β α : Type} (key : β → String) (val : β → α) (l : List β) :
    (dkeys (dfold key val l)).Nodup :=
  nodup_dkeys_foldl key val l [] (by simp [dkeys])

lemma mem_dkeys_dfold {β α : Type} (key : β → String) (val : β → α) (l : List β)
    (name : String) : name ∈ dkeys (dfold key val l) ↔ name ∈ l.map key := by
  rw [dfold, mem_dkeys_foldl]
  simp [dkeys]

lemma count_dkeys_dfold {β α : Type} (key : β → String) (val : β → α) (l : List β)
    (name : String) :
    (dkeys (dfold key val l)).count name = if name ∈ l.map key then 1 else 0 := by
  by_cases h : name ∈ l.map key
  · rw [if_pos h]
    exact List.count_eq_one_of_mem (nodup_dkeys_dfold key val l)
      ((mem_dkeys_dfold key val l name).mpr h)
  · rw [if_neg h]
    exact List.count_eq_zero_of_not_mem
      (fun h2 => h ((mem_dkeys_dfold key val l name).mp h2))

lemma mem_foldl_dinsert {β α : Type} (key : β → String) (val : β → α) (p : String × α) :
    ∀ (l : List β) (d : List (String × α)),
      p ∈ l.foldl (fun acc b => dinsert (key b) (val b) acc) d →
      (∃ b ∈ l, p = (key b, val b)) ∨ p ∈ d := by
  intro l
  induction l with
  | nil => simp
  | cons b rest ih =>
    intro d h
    rcases ih _ (by simpa using h) with h2 | h2
    · obtain ⟨b', hb', hp⟩ := h2
      exact Or.inl ⟨b', List.mem_cons_of_mem _ hb', hp⟩
    · rcases mem_dinsert h2 with h3 | h3
      · exact Or.inl ⟨b, List.mem_cons_self b rest, h3⟩
      · exact Or.inr h3

lemma mem_dfold {β α : Type} {key : β → String} {val : β → α} {p : String × α}
    {l : List β} (h : p ∈ dfold key val l) : ∃ b ∈ l, p = (key b, val b) := by
  rcases mem_foldl_dinsert key val p l [] h with h2 | h2
  · exact h2
  · simp at h2

lemma dget_isSome_iff {α : Type} (d : List (String × α)) (name : String) :
    (dget d name).isSome = true ↔ name ∈ dkeys d := by
  induction d with
  | nil => simp [dget, dkeys]
  | cons hd tl ih =>
    obtain ⟨k, v⟩ := hd
    by_cases h : k = name
    · subst h
      simp [dget, dkeys]
    · have hstep : dget ((k, v) :: tl) name = dget tl name := by simp [dget, h]
      rw [hstep]
      simp only [dkeys, List.map_cons, List.mem_cons]
      simp only [dkeys] at ih
      constructor
      · intro h2
        exact Or.inr (ih.mp h2)
      · rintro (h2 | h2)
        · exact absurd h2.symm h
        · exact ih.mpr h2

@[simp]
lemma year_relocYearPoint (b c t : ℚ) (y : ℕ) :
    (relocYearPoint b c t y).year = y := rfl

lemma map_year_relocCityProjection (e : SimulationEngine) (sd : StructuredData)
    (ed : ExternalData) (city : String) :
    (relocCityProjection e sd ed city).map YearlyPoint.year = List.range' 1 e.time_horizon := by
  simp [relocCityProjection, List.map_map, Function.comp_def]

lemma map_year_purchaseSteps (m : ℚ) :
    ∀ (n start : ℕ) (cv tc : ℚ),
      (purchaseSteps m n start cv tc).map YearlyPoint.year = List.range' start n := by
  intro n
  induction n with
  | zero => intro start cv tc; simp [purchaseSteps]
  | succ n ih =>
    intro start cv tc
    rw [List.range'_succ]
    simp only [purchaseSteps, List.map_cons]
    rw [ih]
    rfl

lemma map_year_jobSteps (b g : ℚ) :
    ∀ (n start : ℕ) (cum : ℚ),
      (jobSteps b g n start cum).map YearlyPoint.year = List.range' start n := by
  intro n
  induction n with
  | zero => intro start cum; simp [jobSteps]
  | succ n ih =>
    intro start cum
    rw [List.range'_succ]
    simp only [jobSteps, List.map_cons]
    rw [ih]
    rfl

lemma map_year_investSteps (a r : ℚ) :
    ∀ (n start : ℕ) (cv : ℚ),
      (investSteps a r n start cv).map YearlyPoint.year = List.range' start n := by
  intro n
  induction n with
  | zero => intro start cv; simp [investSteps]
  | succ n ih =>
    intro start cv
    rw [List.range'_succ]
    simp only [investSteps, List.map_cons]
    rw [ih]
    rfl

lemma projections_runSimulation (e : SimulationEngine) (kind : DecisionType)
    (sd : StructuredData) (ed : ExternalData) (draws : DrawSource) (now : String) :
    (runSimulation e kind sd ed draws now).projections =
      match kind with
      | .relocation => dfold Prod.snd (fun p => relocCityProjection e sd ed p.2)
          (sd.cities.getD []).enum
      | .purchase => dfold Prod.snd
          (fun p => purchaseOptionProjection e (sd.budget.getD 50000) p.1)
          (sd.options.getD []).enum
      | .job => dfold Prod.snd
          (fun p => jobSteps (jobBaseSalary p.1) (jobGrowthRate p.1) e.time_horizon 1 0)
          (sd.options.getD []).enum
      | .investment => dfold Prod.snd
          (fun p => investSteps (sd.amount.getD 10000) (investmentParams p.2).1
            e.time_horizon 1 (sd.amount.getD 10000))
          (sd.options.getD []).enum := by
  cases kind <;> rfl

lemma count_keys_projections (e : SimulationEngine) (kind : DecisionType)
    (sd : StructuredData) (ed : ExternalData) (draws : DrawSource) (now : String)
    (name : String) :
    ((runSimulation e kind sd ed draws now).projections.map Prod.fst).count name =
      if name ∈ inputNames kind sd then 1 else 0 := by
  cases kind <;>
    simp only [projections_runSimulation, inputNames] <;>
    rw [show ∀ d : List (String × List YearlyPoint), d.map Prod.fst = dkeys d from fun _ => rfl,
      count_dkeys_dfold, List.enum_map_snd]

lemma years_projections (e : SimulationEngine) (kind : DecisionType)
    (sd : StructuredData) (ed : ExternalData) (draws : DrawSource) (now : String) :
    ∀ pr ∈ (runSimulation e kind sd ed draws now).projections,
      pr.2.map YearlyPoint.year = List.range' 1 e.time_horizon := by
  intro pr hpr
  rw [projections_runSimulation] at hpr
  cases kind
  · obtain ⟨b, _, rfl⟩ := mem_dfold hpr
    exact map_year_relocCityProjection e sd ed b.2
  · obtain ⟨b, _, rfl⟩ := mem_dfold hpr
    exact map_year_purchaseSteps _ _ _ _ _
  · obtain ⟨b, _, rfl⟩ := mem_dfold hpr
    exact map_year_jobSteps _ _ _ _ _
  · obtain ⟨b, _, rfl⟩ := mem_dfold hpr
    exact map_year_investSteps _ _ _ _ _

/-- A constant random source used by concrete test fixtures. -/
def noDraws : DrawSource := fun _ _ _ => (0, 0)

/-- Fixture: empty external data. -/
def edEmpty : ExternalData := ⟨[], []⟩

/-- Fixture: a relocation factor set whose city list has a duplicate. -/
def sdDup : StructuredData := ⟨some [ "a", "b", "a"], none, none, none, none⟩

/-- Fixture: a factor set with two options. -/
def sdOpts : StructuredData := ⟨none, some [ "A", "B"], none, none, none⟩

/-- C1: for every valid run, the projections mapping has exactly one key
per input option/city (also when the input list contains duplicates),
and each per-option sequence has exactly `time_horizon` points whose
year fields are 1..N in order with no gaps. -/
theorem claim1_projection_shape (e : SimulationEngine) (kind : DecisionType)
    (sd : StructuredData) (ed : ExternalData) (draws : DrawSource) (now : String)
    (hN : 1 ≤ e.time_horizon) :
    (∀ name : String,
      ((runSimulation e kind sd ed draws now).projections.map Prod.fst).count name =
        if name ∈ inputNames kind sd then 1 else 0) ∧
    (∀ pr ∈ (runSimulation e kind sd ed draws now).projections,
      pr.2.length = e.time_horizon ∧
      pr.2.map YearlyPoint.year = List.range' 1 e.time_horizon) := by
  refine ⟨fun name => count_keys_projections e kind sd ed draws now name, fun pr hpr => ?_⟩
  have hy := years_projections e kind sd ed draws now pr hpr
  refine ⟨?_, hy⟩
  rw [← List.length_map pr.2 YearlyPoint.year, hy, List.length_range']

/-- Witness for C1 at a concrete relocation run whose city list contains
a duplicate name. -/
theorem claim1_projection_shape_witness :
    1 ≤ (2 : ℕ) ∧
    ((∀ name : String,
      ((runSimulation ⟨2, 3⟩ .relocation sdDup edEmpty noDraws "t").projections.map
        Prod.fst).count name = if name ∈ inputNames .relocation sdDup then 1 else 0) ∧
    (∀ pr ∈ (runSimulation ⟨2, 3⟩ .relocation sdDup edEmpty noDraws "t").projections,
      pr.2.length = 2 ∧ pr.2.map YearlyPoint.year = List.range' 1 2)) :=
  ⟨by decide, claim1_projection_shape ⟨2, 3⟩ .relocation sdDup edEmpty noDraws "t" (by decide)⟩

/-- C4: `monte_carlo` is null exactly for PURCHASE; for the other three
kinds it is a mapping with a summary entry for every input
option/city. -/
theorem claim4_monte_carlo_null_iff (e : SimulationEngine) (kind : DecisionType)
    (sd : StructuredData) (ed : ExternalData) (draws : DrawSource) (now : String) :
    ((runSimulation e kind sd ed draws now).monte_carlo = none ↔
      kind = DecisionType.purchase) ∧
    (∀ m, (runSimulation e kind sd ed draws now).monte_carlo = some m →
      ∀ name ∈ inputNames kind sd, (dget m name).isSome = true) := by
  cases kind
  case relocation =>
    constructor
    · simp [runSimulation, simulateRelocation]
    · intro m hm name hname
      simp only [runSimulation, simulateRelocation, Option.some.injEq] at hm
      rw [← hm, dget_isSome_iff, mem_dkeys_dfold, List.enum_map_snd]
      simpa [inputNames] using hname
  case purchase =>
    constructor
    · simp [runSimulation, simulatePurchase]
    · intro m hm
      simp [runSimulation, simulatePurchase] at hm
  case job =>
    constructor
    · simp [runSimulation, simulateJob]
    · intro m hm name hname
      simp only [runSimulation, simulateJob, Option.some.injEq] at hm
      rw [← hm, dget_isSome_iff, mem_dkeys_dfold, List.enum_map_snd]
      simpa [inputNames] using hname
  case investment =>
    constructor
    · simp [runSimulation, simulateInvestment]
    · intro m hm name hname
      simp only [runSimulation, simulateInvestment, Option.some.injEq] at hm
      rw [← hm, dget_isSome_iff, mem_dkeys_dfold, List.enum_map_snd]
      simpa [inputNames] using hname

/-- Witness for C4 at a concrete investment run: the claim's inner
implications discharged on a two-option input. -/
theorem claim4_monte_carlo_null_iff_witness :
    ((runSimulation ⟨2, 3⟩ .investment sdOpts edEmpty noDraws "t").monte_carlo = none ↔
      DecisionType.investment = DecisionType.purchase) ∧
    (∀ m, (runSimulation ⟨2, 3⟩ .investment sdOpts edEmpty noDraws "t").monte_carlo = some m →
      ∀ name ∈ inputNames .investment sdOpts, (dget m name).isSome = true) :=
  claim4_monte_carlo_null_iff ⟨2, 3⟩ .investment sdOpts edEmpty noDraws "t"

/-- C6 is refuted on PURCHASE: the purchase metadata carries no sample
count at all (its dict has only the horizon and the timestamp). -/
theorem claim6_counterexample :
    (runSimulation ⟨5, 1000⟩ .purchase sdOpts edEmpty noDraws "t").metadata.monte_carlo_runs
      = none ∧
    (runSimulation ⟨5, 1000⟩ .purchase sdOpts edEmpty noDraws "t").metadata.time_horizon_years
      = 5 :=
  ⟨rfl, rfl⟩

/-- C6 (amended): the metadata always carries the configured time
horizon and the call-time timestamp; the configured sample count is
carried for RELOCATION, JOB and INVESTMENT but omitted for PURCHASE. -/
theorem claim6_amended_metadata (e : SimulationEngine) (kind : DecisionType)
    (sd : StructuredData) (ed : ExternalData) (draws : DrawSource) (now : String) :
    (runSimulation e kind sd ed draws now).metadata.time_horizon_years = e.time_horizon ∧
    (runSimulation e kind sd ed draws now).metadata.simulation_date = now ∧
    (runSimulation e kind sd ed draws now).metadata.monte_carlo_runs =
      (if kind = DecisionType.purchase then none else some e.monte_carlo_runs) := by
  cases kind <;> exact ⟨rfl, rfl, rfl⟩

/-- C2 is refuted: the engine performs no configuration validation.  A
run with `time_horizon_years = 0` (a non-positive value) completes and
returns a `SimulationOutput` — with empty projection lists — instead of
failing fast; no `InvalidRunConfig` error exists anywhere. -/
theorem claim2_counterexample :
    runSimulation ⟨0, 1000⟩ .purchase sdOpts edEmpty noDraws "t" =
      { projections := [( "A", []), ( "B", [])]
        monte_carlo := none
        metadata := {
          time_horizon_years := 0
          monte_carlo_runs := none
          initial_amount := none
          simulation_date := "t" } } := rfl

/-- C2 (amended): the engine checks neither `time_horizon_years` nor
`sample_count`; with a zero horizon every run still returns a
`SimulationOutput`, whose per-option projection lists are all empty
(bound checking `ge=1` exists only in the HTTP schema layer, outside
the engine). -/
theorem claim2_amended_no_validation (e : SimulationEngine) (kind : DecisionType)
    (sd : StructuredData) (ed : ExternalData) (draws : DrawSource) (now : String)
    (h0 : e.time_horizon = 0) (hmc : 1 ≤ e.monte_carlo_runs) :
    ∀ pr ∈ (runSimulation e kind sd ed draws now).projections, pr.2 = [] := by
  intro pr hpr
  have hy := years_projections e kind sd ed draws now pr hpr
  rw [h0] at hy
  simpa using hy

/-- Witness for the amended C2 at a concrete zero-horizon purchase
run. -/
theorem claim2_amended_no_validation_witness :
    ((0 : ℕ) = 0 ∧ 1 ≤ (1000 : ℕ)) ∧
    ∀ pr ∈ (runSimulation ⟨0, 1000⟩ .purchase sdOpts edEmpty noDraws "t").projections,
      pr.2 = [] :=
  ⟨⟨rfl, by decide⟩,
    claim2_amended_no_validation ⟨0, 1000⟩ .purchase sdOpts edEmpty noDraws "t" rfl (by decide)⟩

lemma dget_projections_relocation (e : SimulationEngine) (sd : StructuredData)
    (ed : ExternalData) (draws : DrawSource) (now : String) {city : String}
    (hcity : city ∈ sd.cities.getD []) :
    dget (runSimulation e .relocation sd ed draws now).projections city =
      some (relocCityProjection e sd ed city) := by
  have hproj : (runSimulation e .relocation sd ed draws now).projections
      = dfold Prod.snd (fun p => relocCityProjection e sd ed p.2)
          (sd.cities.getD []).enum := rfl
  rw [hproj]
  exact dget_dfold_eq Prod.snd _ (fun name => relocCityProjection e sd ed name)
    (fun b _ hb => by rw [hb]) (by rw [List.enum_map_snd]; exact hcity)

/-- C3: in the relocation trajectory, year `y` holds gross income
`base·1.02^y`, expenses `yearly_cost·1.03^y`, net income
`gross·(1 − tax)`, savings `net − expenses`, and cumulative savings
`savings·y` (the product with the year index, not a running sum); each
field is stored rounded to two decimals. -/
theorem claim3_relocation_formulas (e : SimulationEngine) (sd : StructuredData)
    (ed : ExternalData) (draws : DrawSource) (now : String) (city : String)
    (hcity : city ∈ sd.cities.getD []) (y : ℕ) (hy1 : 1 ≤ y) (hyN : y ≤ e.time_horizon) :
    ∃ pts, dget (runSimulation e .relocation sd ed draws now).projections city = some pts ∧
      pts.get? (y - 1) = some (.reloc {
        year := y
        gross_income := round2 (relocBaseSalary sd * (102/100)^y)
        net_income := round2 (relocBaseSalary sd * (102/100)^y * (1 - relocEffectiveTax ed city))
        total_expenses := round2 (relocMonthlyCost ed city * 12 * (103/100)^y)
        savings := round2 (relocBaseSalary sd * (102/100)^y * (1 - relocEffectiveTax ed city)
          - relocMonthlyCost ed city * 12 * (103/100)^y)
        cumulative_savings := round2 ((relocBaseSalary sd * (102/100)^y *
            (1 - relocEffectiveTax ed city)
          - relocMonthlyCost ed city * 12 * (103/100)^y) * (y : ℚ)) }) := by
  refine ⟨relocCityProjection e sd ed city, dget_projections_relocation e sd ed draws now hcity, ?_⟩
  · rw [relocCityProjection, List.get?_map, List.get?_range' _ _ (by omega : y - 1 < e.time_horizon)]
    have hy : 1 + 1 * (y - 1) = y := by omega
    rw [hy]
    rfl

/-- Witness for C3: a city with no external data, year 1 of a one-year
horizon. -/
theorem claim3_relocation_formulas_witness :
    ( "a" ∈ sdDup.cities.getD [] ∧ 1 ≤ (1 : ℕ) ∧ (1 : ℕ) ≤ (1 : ℕ)) ∧
    (∃ pts, dget (runSimulation ⟨1, 3⟩ .relocation sdDup edEmpty noDraws "t").projections
        "a" = some pts ∧
      pts.get? 0 = some (.reloc {
        year := 1
        gross_income := round2 (relocBaseSalary sdDup * (102/100)^1)
        net_income := round2 (relocBaseSalary sdDup * (102/100)^1 *
          (1 - relocEffectiveTax edEmpty "a"))
        total_expenses := round2 (relocMonthlyCost edEmpty "a" * 12 * (103/100)^1)
        savings := round2 (relocBaseSalary sdDup * (102/100)^1 *
            (1 - relocEffectiveTax edEmpty "a")
          - relocMonthlyCost edEmpty "a" * 12 * (103/100)^1)
        cumulative_savings := round2 ((relocBaseSalary sdDup * (102/100)^1 *
            (1 - relocEffectiveTax edEmpty "a")
          - relocMonthlyCost edEmpty "a" * 12 * (103/100)^1) * ((1 : ℕ) : ℚ)) })) :=
  ⟨⟨by simp [sdDup], le_refl 1, le_refl 1⟩,
    claim3_relocation_formulas ⟨1, 3⟩ sdDup edEmpty noDraws "t" "a"
      (by simp [sdDup]) 1 (le_refl 1) (le_refl 1)⟩

/-- C7: a relocation run never raises on missing external data: each
absence triggers its own default independently — an absent
cost-of-living entry falls back to monthly cost 2000 (yearly 24000), an
absent tax entry to rate 0.30 — and the city gets a full-horizon
projection unconditionally. -/
theorem claim7_missing_entry_defaults (e : SimulationEngine) (sd : StructuredData)
    (ed : ExternalData) (draws : DrawSource) (now : String) (city : String)
    (hcity : city ∈ sd.cities.getD []) :
    (dget ed.cost_of_living (pyLower city) = none →
      relocMonthlyCost ed city = 2000 ∧ relocMonthlyCost ed city * 12 = 24000) ∧
    (dget ed.tax_rates (pyLower city) = none →
      relocEffectiveTax ed city = 30/100) ∧
    ∃ pts, dget (runSimulation e .relocation sd ed draws now).projections city = some pts ∧
      pts.map YearlyPoint.year = List.range' 1 e.time_horizon := by
  refine ⟨fun hcol => ?_, fun htax => ?_,
    relocCityProjection e sd ed city,
    dget_projections_relocation e sd ed draws now hcity,
    map_year_relocCityProjection e sd ed city⟩
  · have h1 : relocMonthlyCost ed city = 2000 := by
      simp [relocMonthlyCost, dgetD, hcol]
    exact ⟨h1, by rw [h1]; norm_num⟩
  · simp [relocEffectiveTax, dgetD, htax, dget]

/-- Fixture: external data with a tax entry for city `a` but no
cost-of-living entry, so exactly one of the two defaults applies. -/
def edTaxOnly : ExternalData := ⟨[], [( "a", [( "effective_rate", (1 : ℚ)/4)])]⟩

/-- Witness for C7 at a run whose city is absent from the
cost-of-living table while present in the tax table: the hypothesis of
the cost implication is discharged concretely, and the projection part
holds unconditionally. -/
theorem claim7_missing_entry_defaults_witness :
    ( "a" ∈ sdDup.cities.getD [] ∧ dget edTaxOnly.cost_of_living (pyLower "a") = none) ∧
    ((relocMonthlyCost edTaxOnly "a" = 2000 ∧ relocMonthlyCost edTaxOnly "a" * 12 = 24000) ∧
     ∃ pts, dget (runSimulation ⟨2, 3⟩ .relocation sdDup edTaxOnly noDraws "t").projections
         "a" = some pts ∧
       pts.map YearlyPoint.year = List.range' 1 2) :=
  ⟨⟨by simp [sdDup], rfl⟩,
    ⟨(claim7_missing_entry_defaults ⟨2, 3⟩ sdDup edTaxOnly noDraws "t" "a"
        (by simp [sdDup])).1 rfl,
      (claim7_missing_entry_defaults ⟨2, 3⟩ sdDup edTaxOnly noDraws "t" "a"
        (by simp [sdDup])).2.2⟩⟩

/-- C10: a cost-of-living entry that is present but has an empty
component dict behaves exactly like an absent entry — monthly cost 2000,
not 0. -/
theorem claim10_empty_components_default (ed : ExternalData) (city : String)
    (h : dget ed.cost_of_living (pyLower city) = some []) :
    relocMonthlyCost ed city = 2000 ∧
    ∀ ed2 : ExternalData, dget ed2.cost_of_living (pyLower city) = none →
      relocMonthlyCost ed2 city = relocMonthlyCost ed city := by
  have h1 : relocMonthlyCost ed city = 2000 := by
    simp [relocMonthlyCost, dgetD, h]
  refine ⟨h1, fun ed2 h2 => ?_⟩
  rw [h1]
  simp [relocMonthlyCost, dgetD, h2]

/-- Fixture: external data whose cost-of-living entry for city `x` is
present but has no components. -/
def edEmptyComponents : ExternalData := ⟨[( "x", [])], []⟩

/-- Witness for C10 at a concrete city with an empty component map. -/
theorem claim10_empty_components_default_witness :
    dget edEmptyComponents.cost_of_living (pyLower "x") = some [] ∧
    (relocMonthlyCost edEmptyComponents "x" = 2000 ∧
     ∀ ed2 : ExternalData, dget ed2.cost_of_living (pyLower "x") = none →
       relocMonthlyCost ed2 "x" = relocMonthlyCost edEmptyComponents "x") :=
  ⟨rfl, claim10_empty_components_default edEmptyComponents "x" rfl⟩

/-- Fixture: cost-of-living data keyed by the lowercase city name. -/
def edLowerKeys : ExternalData := ⟨[( "paris", [( "rent", (1000 : ℚ))])], []⟩

/-- Fixture: the same cost-of-living data keyed with a capital letter. -/
def edUpperKeys : ExternalData := ⟨[( "Paris", [( "rent", (1000 : ℚ))])], []⟩

/-- C9 is refuted for external-data keys: the engine lowercases only the
queried city name and then matches keys exactly, so re-casing a key of
`external.cost_of_living` changes which entry is found. -/
theorem claim9_counterexample :
    relocMonthlyCost edLowerKeys "Paris" = 1000 ∧
    relocMonthlyCost edUpperKeys "Paris" = 2000 ∧
    relocMonthlyCost edLowerKeys "Paris" ≠ relocMonthlyCost edUpperKeys "Paris" := by
  have hlow : pyLower "Paris" = "paris" := by decide
  have h1 : relocMonthlyCost edLowerKeys "Paris" = 1000 := by
    rw [relocMonthlyCost, hlow]
    norm_num [edLowerKeys, dgetD, dget]
  have h2 : relocMonthlyCost edUpperKeys "Paris" = 2000 := by
    have hne : ("Paris" : String) ≠ "paris" := by decide
    rw [relocMonthlyCost, hlow]
    norm_num [edUpperKeys, dgetD, dget, hne]
  exact ⟨h1, h2, by rw [h1, h2]; norm_num⟩

/-- C9 (amended): changing only the case of the queried name never
changes what is found, because the engine lowercases the query before
the exact-match lookup; this holds for relocation city lookups in both
external tables and for the investment reference table.  Keys of the
external tables themselves are matched case-sensitively (see the
counterexample). -/
theorem claim9_amended_case_insensitive_query (ed : ExternalData) (c1 c2 o1 o2 : String)
    (hc : pyLower c1 = pyLower c2) (ho : pyLower o1 = pyLower o2) :
    relocMonthlyCost ed c1 = relocMonthlyCost ed c2 ∧
    relocEffectiveTax ed c1 = relocEffectiveTax ed c2 ∧
    investmentParams o1 = investmentParams o2 := by
  refine ⟨?_, ?_, ?_⟩
  · rw [relocMonthlyCost, relocMonthlyCost, hc]
  · rw [relocEffectiveTax, relocEffectiveTax, hc]
  · rw [investmentParams, investmentParams, ho]

/-- Witness for the amended C9: two casings of the same city and option
names. -/
theorem claim9_amended_case_insensitive_query_witness :
    (pyLower "Paris" = pyLower "PARIS" ∧ pyLower "Stocks" = pyLower "stocks") ∧
    (relocMonthlyCost edLowerKeys "Paris" = relocMonthlyCost edLowerKeys "PARIS" ∧
     relocEffectiveTax edLowerKeys "Paris" = relocEffectiveTax edLowerKeys "PARIS" ∧
     investmentParams "Stocks" = investmentParams "stocks") :=
  ⟨⟨by decide, by decide⟩,
    claim9_amended_case_insensitive_query edLowerKeys "Paris" "PARIS" "Stocks" "stocks"
      (by decide) (by decide)⟩

lemma rnd_mono {x y : ℚ} (h : x ≤ y) : rnd x ≤ rnd y := by
  have hf : ⌊x⌋ ≤ ⌊y⌋ := Int.floor_mono h
  rcases lt_or_eq_of_le hf with hlt | heqf
  · simp only [rnd]
    split_ifs <;> omega
  · simp only [rnd, ← heqf]
    have hr : x - (⌊x⌋ : ℚ) ≤ y - (⌊x⌋ : ℚ) := by linarith
    split_ifs <;> first
      | omega
      | (exfalso; linarith)

lemma round2_mono {x y : ℚ} (h : x ≤ y) : round2 x ≤ round2 y := by
  unfold round2
  have h100 : (100 : ℚ) * x ≤ 100 * y := by linarith
  have := rnd_mono h100
  have hcast : ((rnd (100 * x) : ℤ) : ℚ) ≤ ((rnd (100 * y) : ℤ) : ℚ) := by exact_mod_cast this
  linarith

lemma rnd_intCast (k : ℤ) : rnd ((k : ℚ)) = k := by
  simp only [rnd, Int.floor_intCast, sub_self]
  norm_num

lemma round2_intCast (k : ℤ) : round2 ((k : ℚ)) = (k : ℚ) := by
  unfold round2
  have h : (100 : ℚ) * k = ((100 * k : ℤ) : ℚ) := by push_cast; ring
  rw [h, rnd_intCast]
  push_cast
  ring

/-- Fixture: an investment draw source sending the first trial to −50%
and the second to +50%. -/
def dHalf : ℕ → ℕ → ℚ := fun t _ => if t = 0 then -(1/2) else 1/2

/-- C5 is refuted: `prob_loss` is not `count/sample_count` — the code
multiplies by 100.  With 1 of 2 trials below the initial amount the
returned value is 50, not 1/2, and it exceeds 1. -/
theorem claim5_counterexample :
    (runMonteCarloInvestment ⟨1, 2⟩ 100 (10/100) (20/100) dHalf).prob_loss = 50 ∧
    ¬ ((runMonteCarloInvestment ⟨1, 2⟩ 100 (10/100) (20/100) dHalf).prob_loss ≤ 1) := by
  have h0 : mcInvestTrial 1 100 (dHalf 0) = 50 := by
    norm_num [mcInvestTrial, dHalf, List.range_succ]
  have h1 : mcInvestTrial 1 100 (dHalf 1) = 150 := by
    norm_num [mcInvestTrial, dHalf, List.range_succ]
  have hpl : (runMonteCarloInvestment ⟨1, 2⟩ 100 (10/100) (20/100) dHalf).prob_loss = 50 := by
    simp only [runMonteCarloInvestment]
    rw [show List.range 2 = [0, 1] from rfl]
    simp only [List.map_cons, List.map_nil, h0, h1]
    rw [show ([50, 150] : List ℚ).countP (fun v => decide (v < 100)) = 1 from by decide]
    rw [show (([(50 : ℚ), 150].length : ℚ)) = 2 from by norm_num]
    rw [show ((1 : ℕ) : ℚ) / 2 * 100 = ((50 : ℤ) : ℚ) from by push_cast; ring]
    rw [round2_intCast]
    norm_num
  exact ⟨hpl, by rw [hpl]; norm_num⟩

/-- C5 (amended): `prob_loss` is the rounded PERCENTAGE of samples whose
terminal value is below the initial amount —
`round2 (100 · count / sample_count)` — and lies in [0, 100]. -/
theorem claim5_amended_prob_loss_percentage (e : SimulationEngine)
    (initial r vol : ℚ) (d : ℕ → ℕ → ℚ) (h : 1 ≤ e.monte_carlo_runs) :
    (runMonteCarloInvestment e initial r vol d).prob_loss =
      round2 ((((List.range e.monte_carlo_runs).map
          (fun t => mcInvestTrial e.time_horizon initial (d t))).countP
            (fun v => decide (v < initial)) : ℚ) / (e.monte_carlo_runs : ℚ) * 100) ∧
    0 ≤ (runMonteCarloInvestment e initial r vol d).prob_loss ∧
    (runMonteCarloInvestment e initial r vol d).prob_loss ≤ 100 := by
  have hlen : ((List.range e.monte_carlo_runs).map
      (fun t => mcInvestTrial e.time_horizon initial (d t))).length
        = e.monte_carlo_runs := by
    rw [List.length_map, List.length_range]
  have heq : (runMonteCarloInvestment e initial r vol d).prob_loss =
      round2 ((((List.range e.monte_carlo_runs).map
          (fun t => mcInvestTrial e.time_horizon initial (d t))).countP
            (fun v => decide (v < initial)) : ℚ) / (e.monte_carlo_runs : ℚ) * 100) := by
    simp only [runMonteCarloInvestment, hlen]
  refine ⟨heq, ?_, ?_⟩
  · rw [heq]
    have h0 : (0 : ℚ) = round2 ((0 : ℤ) : ℚ) := by rw [round2_intCast]; norm_num
    rw [h0]
    apply round2_mono
    have hn : (0 : ℚ) < (e.monte_carlo_runs : ℚ) := by exact_mod_cast h
    positivity
  · rw [heq]
    have hn : (0 : ℚ) < (e.monte_carlo_runs : ℚ) := by exact_mod_cast h
    have hcount : ((((List.range e.monte_carlo_runs).map
        (fun t => mcInvestTrial e.time_horizon initial (d t))).countP
          (fun v => decide (v < initial))) : ℚ) ≤ (e.monte_carlo_runs : ℚ) := by
      have := List.countP_le_length (l := (List.range e.monte_carlo_runs).map
        (fun t => mcInvestTrial e.time_horizon initial (d t)))
        (p := fun v => decide (v < initial))
      rw [hlen] at this
      exact_mod_cast this
    have hdiv : (((List.range e.monte_carlo_runs).map
        (fun t => mcInvestTrial e.time_horizon initial (d t))).countP
          (fun v => decide (v < initial)) : ℚ) / (e.monte_carlo_runs : ℚ) ≤ 1 :=
      (div_le_one hn).mpr hcount
    calc round2 ((((List.range e.monte_carlo_runs).map
          (fun t => mcInvestTrial e.time_horizon initial (d t))).countP
            (fun v => decide (v < initial)) : ℚ) / (e.monte_carlo_runs : ℚ) * 100)
        ≤ round2 (((100 : ℤ) : ℚ)) := round2_mono (by push_cast; linarith)
      _ = ((100 : ℤ) : ℚ) := round2_intCast 100
      _ = 100 := by norm_num

/-- Witness for the amended C5 at the concrete two-trial run. -/
theorem claim5_amended_prob_loss_percentage_witness :
    1 ≤ (2 : ℕ) ∧
    ((runMonteCarloInvestment ⟨1, 2⟩ 100 (10/100) (20/100) dHalf).prob_loss =
      round2 ((((List.range 2).map (fun t => mcInvestTrial 1 100 (dHalf t))).countP
        (fun v => decide (v < 100)) : ℚ) / ((2 : ℕ) : ℚ) * 100) ∧
    0 ≤ (runMonteCarloInvestment ⟨1, 2⟩ 100 (10/100) (20/100) dHalf).prob_loss ∧
    (runMonteCarloInvestment ⟨1, 2⟩ 100 (10/100) (20/100) dHalf).prob_loss ≤ 100) :=
  ⟨by decide, claim5_amended_prob_loss_percentage ⟨1, 2⟩ 100 (10/100) (20/100) dHalf (by decide)⟩

lemma getD_sorted_mono {s : List ℚ} (hs : s.Sorted (· ≤ ·)) {i j : ℕ} (hij : i ≤ j)
    (hj : j < s.length) : s.getD i 0 ≤ s.getD j 0 := by
  have hi : i < s.length := lt_of_le_of_lt hij hj
  rw [List.getD_eq_get s 0 hi, List.getD_eq_get s 0 hj]
  exact hs.rel_get_of_le (by exact hij)

lemma interp_of_lt {s : List ℚ} {pos : ℚ} (h : (⌊pos⌋).toNat + 1 < s.length) :
    interp s pos = s.getD (⌊pos⌋).toNat 0 +
      (pos - ((⌊pos⌋).toNat : ℚ)) *
        (s.getD ((⌊pos⌋).toNat + 1) 0 - s.getD (⌊pos⌋).toNat 0) := by
  simp only [interp]
  rw [if_pos h]

lemma interp_of_ge {s : List ℚ} {pos : ℚ} (h : ¬ ((⌊pos⌋).toNat + 1 < s.length)) :
    interp s pos = s.getD (s.length - 1) 0 := by
  simp only [interp]
  rw [if_neg h]

lemma floor_toNat_cast_le {p : ℚ} (h0 : 0 ≤ p) : (((⌊p⌋).toNat : ℕ) : ℚ) ≤ p := by
  have hf : (0 : ℤ) ≤ ⌊p⌋ := Int.floor_nonneg.mpr h0
  have h1 : (((⌊p⌋).toNat : ℤ) : ℚ) = ((⌊p⌋ : ℤ) : ℚ) := by rw [Int.toNat_of_nonneg hf]
  calc (((⌊p⌋).toNat : ℕ) : ℚ) = (((⌊p⌋).toNat : ℤ) : ℚ) := by push_cast; ring
    _ = ((⌊p⌋ : ℤ) : ℚ) := h1
    _ ≤ p := Int.floor_le p

lemma lt_floor_toNat_add_one {p : ℚ} (h0 : 0 ≤ p) : p < (((⌊p⌋).toNat : ℕ) : ℚ) + 1 := by
  have hf : (0 : ℤ) ≤ ⌊p⌋ := Int.floor_nonneg.mpr h0
  have h1 : (((⌊p⌋).toNat : ℤ) : ℚ) = ((⌊p⌋ : ℤ) : ℚ) := by rw [Int.toNat_of_nonneg hf]
  calc p < ((⌊p⌋ : ℤ) : ℚ) + 1 := Int.lt_floor_add_one p
    _ = (((⌊p⌋).toNat : ℕ) : ℚ) + 1 := by rw [← h1]; push_cast; ring

lemma interp_mono {s : List ℚ} (hs : s.Sorted (· ≤ ·)) (hne : s ≠ [])
    {p1 p2 : ℚ} (h0 : 0 ≤ p1) (h12 : p1 ≤ p2) : interp s p1 ≤ interp s p2 := by
  have hn : 0 < s.length := List.length_pos.mpr hne
  have h02 : 0 ≤ p2 := le_trans h0 h12
  have hi12 : (⌊p1⌋).toNat ≤ (⌊p2⌋).toNat := Int.toNat_le_toNat (Int.floor_mono h12)
  have hc1 := floor_toNat_cast_le h0
  have hc1' := lt_floor_toNat_add_one h0
  have hc2 := floor_toNat_cast_le h02
  by_cases hb1 : (⌊p1⌋).toNat + 1 < s.length
  · rw [interp_of_lt hb1]
    have hab1 : s.getD (⌊p1⌋).toNat 0 ≤ s.getD ((⌊p1⌋).toNat + 1) 0 :=
      getD_sorted_mono hs (Nat.le_succ _) hb1
    by_cases hb2 : (⌊p2⌋).toNat + 1 < s.length
    · rw [interp_of_lt hb2]
      by_cases he : (⌊p1⌋).toNat = (⌊p2⌋).toNat
      · rw [← he]
        nlinarith [hab1, h12]
      · have hlt : (⌊p1⌋).toNat < (⌊p2⌋).toNat := lt_of_le_of_ne hi12 he
        have hmid : s.getD ((⌊p1⌋).toNat + 1) 0 ≤ s.getD (⌊p2⌋).toNat 0 :=
          getD_sorted_mono hs (by omega) (by omega)
        have hab2 : s.getD (⌊p2⌋).toNat 0 ≤ s.getD ((⌊p2⌋).toNat + 1) 0 :=
          getD_sorted_mono hs (Nat.le_succ _) hb2
        nlinarith [hab1, hmid, hab2, hc1, hc1', hc2]
    · rw [interp_of_ge hb2]
      have hlast : s.getD ((⌊p1⌋).toNat + 1) 0 ≤ s.getD (s.length - 1) 0 :=
        getD_sorted_mono hs (by omega) (by omega)
      nlinarith [hab1, hlast, hc1, hc1']
  · have hb2 : ¬ ((⌊p2⌋).toNat + 1 < s.length) := by omega
    rw [interp_of_ge hb1, interp_of_ge hb2]

lemma sortQ_sorted (l : List ℚ) : (sortQ l).Sorted (· ≤ ·) :=
  List.sorted_insertionSort _ l

lemma sortQ_ne_nil {l : List ℚ} (hl : l ≠ []) : sortQ l ≠ [] := by
  intro h
  have hlen : (sortQ l).length = l.length := (List.perm_insertionSort _ l).length_eq
  rw [h] at hlen
  exact hl (List.length_eq_zero.mp hlen.symm)

lemma percentile_mono (l : List ℚ) (hl : l ≠ []) {q1 q2 : ℚ} (h0 : 0 ≤ q1)
    (h12 : q1 ≤ q2) : percentile l q1 ≤ percentile l q2 := by
  have hne := sortQ_ne_nil hl
  have hn : 0 < (sortQ l).length := List.length_pos.mpr hne
  have hcoef : (0 : ℚ) ≤ ((sortQ l).length : ℚ) - 1 := by
    have : (1 : ℚ) ≤ ((sortQ l).length : ℚ) := by exact_mod_cast hn
    linarith
  unfold percentile
  apply interp_mono (sortQ_sorted l) hne
  · positivity
  · have := mul_le_mul_of_nonneg_right h12 hcoef
    linarith

lemma percentile_chain (l : List ℚ) (hl : l ≠ []) :
    round2 (percentile l 5) ≤ round2 (percentile l 25) ∧
    round2 (percentile l 25) ≤ round2 (percentile l 50) ∧
    round2 (percentile l 50) ≤ round2 (percentile l 75) ∧
    round2 (percentile l 75) ≤ round2 (percentile l 95) :=
  ⟨round2_mono (percentile_mono l hl (by norm_num) (by norm_num)),
   round2_mono (percentile_mono l hl (by norm_num) (by norm_num)),
   round2_mono (percentile_mono l hl (by norm_num) (by norm_num)),
   round2_mono (percentile_mono l hl (by norm_num) (by norm_num))⟩

lemma sqrtFloor_nonneg (x : ℚ) : 0 ≤ sqrtFloor x := by
  unfold sqrtFloor
  exact Int.natCast_nonneg _

lemma rndSqrt_nonneg (y : ℚ) : 0 ≤ rndSqrt y := by
  have := sqrtFloor_nonneg y
  simp only [rndSqrt]
  split_ifs <;> omega

lemma stdRound2_nonneg (v : ℚ) : 0 ≤ stdRound2 v := by
  unfold stdRound2
  have h := rndSqrt_nonneg (10000 * v)
  have hc : (0 : ℚ) ≤ ((rndSqrt (10000 * v) : ℤ) : ℚ) := by exact_mod_cast h
  positivity

lemma map_range_ne_nil {n : ℕ} (h : 1 ≤ n) (f : ℕ → ℚ) :
    (List.range n).map f ≠ [] := by
  intro h2
  have := congrArg List.length h2
  simp only [List.length_map, List.length_range, List.length_nil] at this
  omega

/-- C8: in every Monte Carlo summary any of the three samplers returns,
the percentile fields that are present are ordered
`p5 ≤ p25 ≤ p50 ≤ p75 ≤ p95`, and `std ≥ 0`; both facts survive the
rounding to two decimals applied before the summary is returned. -/
theorem claim8_summary_ordering (e : SimulationEngine)
    (base yearly tax growth initial r vol : ℚ)
    (d2 : ℕ → ℕ → ℚ × ℚ) (d1 : ℕ → ℕ → ℚ) (h : 1 ≤ e.monte_carlo_runs) :
    ((runMonteCarloSavings e base yearly tax d2).p5 ≤
        (runMonteCarloSavings e base yearly tax d2).p25 ∧
      (runMonteCarloSavings e base yearly tax d2).p25 ≤
        (runMonteCarloSavings e base yearly tax d2).p50 ∧
      (runMonteCarloSavings e base yearly tax d2).p50 ≤
        (runMonteCarloSavings e base yearly tax d2).p75 ∧
      (runMonteCarloSavings e base yearly tax d2).p75 ≤
        (runMonteCarloSavings e base yearly tax d2).p95 ∧
      0 ≤ (runMonteCarloSavings e base yearly tax d2).std) ∧
    ((runMonteCarloSalary e base growth d1).p5 ≤ (runMonteCarloSalary e base growth d1).p95 ∧
      0 ≤ (runMonteCarloSalary e base growth d1).std) ∧
    ((runMonteCarloInvestment e initial r vol d1).p5 ≤
        (runMonteCarloInvestment e initial r vol d1).p25 ∧
      (runMonteCarloInvestment e initial r vol d1).p25 ≤
        (runMonteCarloInvestment e initial r vol d1).p50 ∧
      (runMonteCarloInvestment e initial r vol d1).p50 ≤
        (runMonteCarloInvestment e initial r vol d1).p75 ∧
      (runMonteCarloInvestment e initial r vol d1).p75 ≤
        (runMonteCarloInvestment e initial r vol d1).p95 ∧
      0 ≤ (runMonteCarloInvestment e initial r vol d1).std) := by
  refine ⟨?_, ?_, ?_⟩
  · simp only [runMonteCarloSavings]
    obtain ⟨c1, c2, c3, c4⟩ := percentile_chain _
      (map_range_ne_nil h (fun t => mcSavingsTrial e.time_horizon base yearly tax (d2 t)))
    exact ⟨c1, c2, c3, c4, stdRound2_nonneg _⟩
  · simp only [runMonteCarloSalary]
    refine ⟨round2_mono (percentile_mono _
      (map_range_ne_nil h (fun t => mcSalaryTrial e.time_horizon base (d1 t)))
      (by norm_num) (by norm_num)), stdRound2_nonneg _⟩
  · simp only [runMonteCarloInvestment]
    obtain ⟨c1, c2, c3, c4⟩ := percentile_chain _
      (map_range_ne_nil h (fun t => mcInvestTrial e.time_horizon initial (d1 t)))
    exact ⟨c1, c2, c3, c4, stdRound2_nonneg _⟩

/-- Fixture: the savings summary of a concrete one-trial run. -/
def mcsFix : MCSavingsSummary := runMonteCarloSavings ⟨1, 1⟩ 0 0 0 (fun _ _ => (0, 0))

/-- Fixture: the salary summary of a concrete one-trial run. -/
def mcjFix : MCSalarySummary := runMonteCarloSalary ⟨1, 1⟩ 0 0 (fun _ _ => 0)

/-- Fixture: the investment summary of a concrete one-trial run. -/
def mciFix : MCInvestmentSummary := runMonteCarloInvestment ⟨1, 1⟩ 0 0 0 (fun _ _ => 0)

/-- Witness for C8 at a concrete one-trial configuration. -/
theorem claim8_summary_ordering_witness :
    1 ≤ (1 : ℕ) ∧
    ((mcsFix.p5 ≤ mcsFix.p25 ∧ mcsFix.p25 ≤ mcsFix.p50 ∧ mcsFix.p50 ≤ mcsFix.p75 ∧
        mcsFix.p75 ≤ mcsFix.p95 ∧ 0 ≤ mcsFix.std) ∧
      (mcjFix.p5 ≤ mcjFix.p95 ∧ 0 ≤ mcjFix.std) ∧
      (mciFix.p5 ≤ mciFix.p25 ∧ mciFix.p25 ≤ mciFix.p50 ∧ mciFix.p50 ≤ mciFix.p75 ∧
        mciFix.p75 ≤ mciFix.p95 ∧ 0 ≤ mciFix.std)) :=
  ⟨le_refl 1,
    claim8_summary_ordering ⟨1, 1⟩ 0 0 0 0 0 0 0 (fun _ _ => (0, 0)) (fun _ _ => 0) (le_refl 1)⟩

end DecisionSim
